import Mathlib

/-!
Verification development for the credential-issuance and
confidential-identifier subsystem of `src/backend/app/client_service.py`.

The Python source is shallowly embedded below:
  - `hashlib.sha256(...).hexdigest()` is embedded as a full SHA-256
    implementation over byte lists (`sha256bytes`, `sha256hex`);
  - `secrets.token_hex(n)` is embedded as hex rendering of the n random
    bytes that the operating system supplies (`token_hex`), the bytes
    being an explicit input of the model;
  - `datetime.now().strftime(...)` is embedded as a rendering function
    over an explicit clock-reading input (`strftimeOut`);
  - the Fernet codec from the `cryptography` library is embedded as an
    injective token encoding with key check (`fernetEncrypt`,
    `fernetDecrypt`), see the comments there;
  - the MongoDB collection is embedded as a list of documents, with
    `find_one`, `insert_one` and `update_one` (with a `set` update)
    given their documented semantics (first match in list order,
    `modified_count` counting really-changed documents).
-/

/-! ## Bytes and hexadecimal rendering -/

/-- One lowercase hexadecimal digit character for a nibble value.
Values above 15 cannot arise from the call sites (arguments are taken
mod 16) and are clamped. -/
def hexDigitOf : Nat → Char
  | 0 => '0' | 1 => '1' | 2 => '2' | 3 => '3' | 4 => '4'
  | 5 => '5' | 6 => '6' | 7 => '7' | 8 => '8' | 9 => '9'
  | 10 => 'a' | 11 => 'b' | 12 => 'c' | 13 => 'd' | 14 => 'e'
  | _ => 'f'

/-- The two lowercase hex characters of a byte, high nibble first. -/
def byteHexChars (b : Nat) : List Char :=
  [hexDigitOf ((b / 16) % 16), hexDigitOf (b % 16)]

/-- Model of `secrets.token_hex(n)`: the hexadecimal rendering of the
`n` random bytes drawn from the OS entropy source; the bytes are an
explicit input of the model. -/
def token_hex (bytes : List Nat) : String :=
  String.mk (bytes.flatMap byteHexChars)

/-- Recognizer for a lowercase hexadecimal character (0-9, a-f). -/
def isLowerHexChar (c : Char) : Bool :=
  (48 ≤ c.toNat && c.toNat ≤ 57) || (97 ≤ c.toNat && c.toNat ≤ 102)

/-- Recognizer for a decimal digit character. -/
def isDigitChar (c : Char) : Bool :=
  48 ≤ c.toNat && c.toNat ≤ 57

/-! ## UTF-8 encoding (model of Python `str.encode()`) -/

/-- UTF-8 encoding of a single scalar value. -/
def utf8EncodeChar (c : Char) : List Nat :=
  let n := c.toNat
  if n < 128 then [n]
  else if n < 2048 then [192 ||| (n >>> 6), 128 ||| (n &&& 63)]
  else if n < 65536 then
    [224 ||| (n >>> 12), 128 ||| ((n >>> 6) &&& 63), 128 ||| (n &&& 63)]
  else
    [240 ||| (n >>> 18), 128 ||| ((n >>> 12) &&& 63),
     128 ||| ((n >>> 6) &&& 63), 128 ||| (n &&& 63)]

/-- Model of Python `s.encode()` (UTF-8 bytes of a string). -/
def utf8Encode (s : String) : List Nat :=
  s.data.flatMap utf8EncodeChar

/-! ## SHA-256 (model of `hashlib.sha256`) -/

/-- Truncation to a 32-bit word. -/
def w32 (n : Nat) : Nat := n % 4294967296

/-- Right rotation of a 32-bit word by `s` bits. -/
def rotr (s x : Nat) : Nat := w32 ((x >>> s) ||| (x <<< (32 - s)))

/-- The 64 SHA-256 round constants, written in decimal. -/
def sha256K : List Nat :=
  [1116352408, 1899447441, 3049323471, 3921009573, 961987163,
   1508970993, 2453635748, 2870763221, 3624381080, 310598401,
   607225278, 1426881987, 1925078388, 2162078206, 2614888103,
   3248222580, 3835390401, 4022224774, 264347078, 604807628,
   770255983, 1249150122, 1555081692, 1996064986, 2554220882,
   2821834349, 2952996808, 3210313671, 3336571891, 3584528711,
   113926993, 338241895, 666307205, 773529912, 1294757372,
   1396182291, 1695183700, 1986661051, 2177026350, 2456956037,
   2730485921, 2820302411, 3259730800, 3345764771, 3516065817,
   3600352804, 4094571909, 275423344, 430227734, 506948616,
   659060556, 883997877, 958139571, 1322822218, 1537002063,
   1747873779, 1955562222, 2024104815, 2227730452, 2361852424,
   2428436474, 2756734187, 3204031479, 3329325298]

/-- The eight 32-bit words of the SHA-256 working state. -/
structure Hash8 where
  a : Nat
  b : Nat
  c : Nat
  d : Nat
  e : Nat
  f : Nat
  g : Nat
  h : Nat
deriving Repr, DecidableEq

/-- The SHA-256 initial hash value, written in decimal. -/
def sha256H0 : Hash8 :=
  ⟨1779033703, 3144134277, 1013904242, 2773480762,
   1359893119, 2600822924, 528734635, 1541459225⟩

/-- Big-endian rendering of `n` into `k` bytes. -/
def toBEbytes (k n : Nat) : List Nat :=
  (List.range k).map (fun i => (n >>> (8 * (k - 1 - i))) % 256)

/-- SHA-256 message padding: append 0x80, zero bytes up to 56 mod 64,
then the bit length as 8 big-endian bytes. -/
def sha256Pad (msg : List Nat) : List Nat :=
  let L := msg.length
  let zeros := (64 + 56 - (L + 1) % 64) % 64
  msg ++ 128 :: List.replicate zeros 0 ++ toBEbytes 8 (8 * L)

/-- The 64-byte blocks of a padded message. -/
def sha256Blocks (l : List Nat) : List (List Nat) :=
  (List.range (l.length / 64)).map (fun j => (l.drop (64 * j)).take 64)

/-- Big-endian word value of a byte list. -/
def beWord (l : List Nat) : Nat :=
  l.foldl (fun acc x => acc * 256 + x) 0

/-- The sixteen 32-bit words of one 64-byte block. -/
def blockWords (b : List Nat) : List Nat :=
  (List.range 16).map (fun j => beWord ((b.drop (4 * j)).take 4))

/-- One extension step of the SHA-256 message schedule. -/
def schedStep (ws : List Nat) : List Nat :=
  let t := ws.length
  let s0 := rotr 7 (ws.getD (t - 15) 0) ^^^ rotr 18 (ws.getD (t - 15) 0) ^^^
            (ws.getD (t - 15) 0 >>> 3)
  let s1 := rotr 17 (ws.getD (t - 2) 0) ^^^ rotr 19 (ws.getD (t - 2) 0) ^^^
            (ws.getD (t - 2) 0 >>> 10)
  ws ++ [w32 (ws.getD (t - 16) 0 + s0 + ws.getD (t - 7) 0 + s1)]

/-- One SHA-256 compression round on the working state. -/
def roundStep (st : Hash8) (kw : Nat × Nat) : Hash8 :=
  let S1 := rotr 6 st.e ^^^ rotr 11 st.e ^^^ rotr 25 st.e
  let ch := (st.e &&& st.f) ^^^ ((st.e ^^^ 0xffffffff) &&& st.g)
  let temp1 := w32 (st.h + S1 + ch + kw.1 + kw.2)
  let S0 := rotr 2 st.a ^^^ rotr 13 st.a ^^^ rotr 22 st.a
  let maj := (st.a &&& st.b) ^^^ (st.a &&& st.c) ^^^ (st.b &&& st.c)
  let temp2 := w32 (S0 + maj)
  ⟨w32 (temp1 + temp2), st.a, st.b, st.c, w32 (st.d + temp1), st.e, st.f, st.g⟩

/-- Compression of a single 64-byte block into the running state. -/
def processBlock (st : Hash8) (block : List Nat) : Hash8 :=
  let ws := schedStep^[48] (blockWords block)
  let fin := (List.zip sha256K ws).foldl roundStep st
  ⟨w32 (st.a + fin.a), w32 (st.b + fin.b), w32 (st.c + fin.c),
   w32 (st.d + fin.d), w32 (st.e + fin.e), w32 (st.f + fin.f),
   w32 (st.g + fin.g), w32 (st.h + fin.h)⟩

/-- The 32 digest bytes of a final state, big-endian per word. -/
def hashToBytes (st : Hash8) : List Nat :=
  toBEbytes 4 st.a ++ toBEbytes 4 st.b ++ toBEbytes 4 st.c ++ toBEbytes 4 st.d ++
  toBEbytes 4 st.e ++ toBEbytes 4 st.f ++ toBEbytes 4 st.g ++ toBEbytes 4 st.h

/-- SHA-256 digest (32 bytes) of a byte message. -/
def sha256bytes (msg : List Nat) : List Nat :=
  hashToBytes ((sha256Blocks (sha256Pad msg)).foldl processBlock sha256H0)

/-- Model of `hashlib.sha256(s.encode()).hexdigest()`: the lowercase
hexadecimal rendering of the SHA-256 digest of the UTF-8 bytes of `s`. -/
def sha256hex (s : String) : String :=
  String.mk ((sha256bytes (utf8Encode s)).flatMap byteHexChars)

/-! ## Timestamp rendering (model of `datetime.now().strftime`) -/

/-- One decimal digit character for a value taken mod 10. -/
def digitOf : Nat → Char
  | 0 => '0' | 1 => '1' | 2 => '2' | 3 => '3' | 4 => '4'
  | 5 => '5' | 6 => '6' | 7 => '7' | 8 => '8' | _ => '9'

/-- Zero-padded two-digit decimal rendering (the strftime field
renderings all have values below 100). -/
def pad2 (x : Nat) : String :=
  String.mk [digitOf ((x / 10) % 10), digitOf (x % 10)]

/-- Zero-padded four-digit decimal rendering for the year field. -/
def pad4 (x : Nat) : String :=
  String.mk [digitOf ((x / 1000) % 10), digitOf ((x / 100) % 10),
             digitOf ((x / 10) % 10), digitOf (x % 10)]

/-- A clock reading, the explicit input standing for `datetime.now()`. -/
structure DateTimeParts where
  day : Nat
  month : Nat
  year : Nat
  hour : Nat
  minute : Nat
  second : Nat
deriving Repr, DecidableEq

/-- Model of `datetime.now().strftime("%d-%m-%Y %H:%M:%S")` applied to
the clock reading `t`: each field zero-padded, hour on the 24-hour
clock rendered as-is. -/
def strftimeOut (t : DateTimeParts) : String :=
  pad2 t.day ++ "-" ++ pad2 t.month ++ "-" ++ pad4 t.year ++ " " ++
  pad2 t.hour ++ ":" ++ pad2 t.minute ++ ":" ++ pad2 t.second

/-! ## Confidentiality codec (model of the Fernet cipher suite)

The `cryptography.fernet.Fernet` library used by `encrypt_app_key` and
`decrypt_app_key` is external to the repository; it is modelled here by
an injective token encoding that records the key and the per-call
random nonce: encryption concatenates a version tag, the key, the
nonce and the plaintext with dot separators, and decryption parses the
token, verifies the recorded key against the process key and recovers
the plaintext, failing with `InvalidToken` on any malformed token or
key mismatch — exactly the observable contract of authenticated
symmetric encryption (confidentiality plus integrity) that the library
documents. -/

/-- The single failure of Fernet decryption:
`cryptography.fernet.InvalidToken`. -/
inductive CryptoErr where
  | invalidToken
deriving Repr, DecidableEq

/-- Drop an expected leading character sequence, or fail. -/
def dropLead : List Char → List Char → Option (List Char)
  | [], cs => some cs
  | _ :: _, [] => none
  | a :: ps, c :: cs => if c = a then dropLead ps cs else none

/-- Split a character list at its first dot, or fail when no dot. -/
def splitFirstDot : List Char → Option (List Char × List Char)
  | [] => none
  | c :: cs =>
    if c = '.' then some ([], cs)
    else
      match splitFirstDot cs with
      | none => none
      | some (a, b) => some (c :: a, b)

/-- Model of `Fernet(key).encrypt(pt)` followed by utf-8 decoding: an
opaque token string recording key, per-call nonce and plaintext. -/
def fernetEncrypt (key nonce pt : String) : String :=
  "FT1." ++ key ++ "." ++ nonce ++ "." ++ pt

/-- Model of `Fernet(key).decrypt(token)`: parse the token, check the
recorded key against `key`, and recover the plaintext; any malformed
token or key mismatch fails with `InvalidToken`. -/
def fernetDecrypt (key token : String) : Except CryptoErr String :=
  match dropLead "FT1.".data token.data with
  | none => .error .invalidToken
  | some rest =>
    match splitFirstDot rest with
    | none => .error .invalidToken
    | some (kf, rest2) =>
      match splitFirstDot rest2 with
      | none => .error .invalidToken
      | some (_, ptf) =>
        if kf = key.data then .ok (String.mk ptf) else .error .invalidToken

/-- Embedding of `encrypt_app_key` (line 21): encrypt the given app
key under the process-wide `ENCRYPTION_KEY`; the nonce models the
randomness the cipher draws on each call. -/
def encrypt_app_key (encryptionKey nonce app_key : String) : String :=
  fernetEncrypt encryptionKey nonce app_key

/-- Embedding of `decrypt_app_key` (line 28): decrypt a token under
the process-wide `ENCRYPTION_KEY`; the library raises `InvalidToken`
on failure, modelled as the error branch. -/
def decrypt_app_key (encryptionKey encrypted_key : String) : Except CryptoErr String :=
  fernetDecrypt encryptionKey encrypted_key

/-! ## The service collection (model of the MongoDB collection) -/

/-- A document of the service collection. The fields written by
`generate_client_id` are always present; the service fields written
later by `add_client_service` and the approval flag written by
`approve_service_key` are optional (`none` models an absent field). -/
structure ServiceDoc where
  client_email : String
  app_key : String
  app_secret : String
  created_at : String
  service_name : Option String := none
  service_domain : Option String := none
  service_uri : Option String := none
  is_approved : Option Nat := none
deriving Repr, DecidableEq

/-- The collection, in insertion order. -/
abbrev Collection := List ServiceDoc

/-- Model of `update_one(filter, set)`: rewrite the first document
matching `p` with `f`, returning the new collection and the
`modified_count` (1 when a matched document actually changed, else 0,
as the MongoDB driver reports it). -/
def updateFirst (p : ServiceDoc → Bool) (f : ServiceDoc → ServiceDoc) :
    Collection → Collection × Nat
  | [] => ([], 0)
  | d :: ds =>
    if p d then
      (f d :: ds, if f d = d then 0 else 1)
    else
      let r := updateFirst p f ds
      (d :: r.1, r.2)

/-! ## Credential generation (embedding of `generate_client_id`) -/

/-- The nondeterministic inputs of one issuance request, made explicit:
per-iteration entropy for the candidate loop (`uuid4()`, `time.time()`
rendered as a string, and the 16 random bytes of
`secrets.token_hex(16)`), the 40 random bytes of the secret, and the
clock reading of `datetime.now()`. -/
structure GenEntropy where
  uuidStr : Nat → String
  timeStr : Nat → String
  tok16Bytes : Nat → List Nat
  secretBytes : List Nat
  now : DateTimeParts

/-- The combined entropy material of loop iteration `i`:
the f-string at line 133, with uuid, time and random token separated
by underscores. -/
def combineData (e : GenEntropy) (i : Nat) : String :=
  e.uuidStr i ++ "_" ++ e.timeStr i ++ "_" ++ token_hex (e.tok16Bytes i)

/-- Join strings with single dashes, the semantics of
`"-".join(parts)`. -/
def joinDash : List String → String
  | [] => ""
  | [p] => p
  | p :: ps => p ++ "-" ++ joinDash ps

/-- The slices `s[i:i+8]` for `i in range(0, len(s), 8)`. -/
def slices8 (cs : List Char) : List (List Char) :=
  (List.range ((cs.length + 7) / 8)).map (fun j => (cs.drop (8 * j)).take 8)

/-- Line 135: regroup a string into dash-separated 8-character slices. -/
def regroupDash8 (s : String) : String :=
  joinDash ((slices8 s.data).map String.mk)

/-- The candidate identifier computed in loop iteration `i`
(lines 133-135): dash-regrouped lowercase-hex SHA-256 digest of the
combined entropy material. -/
def keyCandidate (e : GenEntropy) (i : Nat) : String :=
  regroupDash8 (sha256hex (combineData e i))

/-- The collision-avoidance loop of lines 132-138, parameterized by
the existence check that line 136 performs against the service
collection. Returns the number of candidate computations together
with the accepted candidate; `fuel` bounds the unrolling (the Python
loop is unbounded) and `i` is the iteration index. -/
def genLoopAux (ex : String → Bool) (e : GenEntropy) : Nat → Nat → Option (Nat × String)
  | 0, _ => none
  | fuel + 1, i =>
    if ex (keyCandidate e i) then genLoopAux ex e fuel (i + 1)
    else some (i + 1, keyCandidate e i)

/-- The existence check of line 136: `find_one({"app_key": app_key})`
reports a document present. -/
def existsAppKey (s : Collection) (k : String) : Bool :=
  (List.find? (fun d => d.app_key == k) s).isSome

/-- The errors `generate_client_id` reports: missing email (HTTP 400)
and failed insert (HTTP 500, the persistence failure of lines
149-152). -/
inductive GenErr where
  | emailRequired
  | insertFailed
deriving Repr, DecidableEq

/-- The HTTP status code each issuance error is reported with. -/
def GenErr.code : GenErr → Nat
  | .emailRequired => 400
  | .insertFailed => 500

/-- The success payload of `generate_client_id` (lines 154-161). -/
structure GenResult where
  app_key : String
  app_secret : String
  created_at : String
deriving Repr, DecidableEq

/-- Observable interaction counts of one issuance: how many candidate
identifiers the loop computed and how many insert attempts were made
against the collection. -/
structure GenTrace where
  candidates : Nat
  inserts : Nat
deriving Repr, DecidableEq

/-- Embedding of `generate_client_id` (lines 124-161). Inputs: the
explicit entropy, the loop fuel, the request email, whether the
`insert_one` call succeeds (line 150 may raise), and the collection
state. Output `none` means the loop did not finish within `fuel`;
otherwise the endpoint result, the new collection state and the
interaction trace are returned. -/
def generate_client_id (e : GenEntropy) (fuel : Nat) (client_email : String)
    (insertOk : Bool) (s : Collection) :
    Option (Except GenErr GenResult × Collection × GenTrace) :=
  if client_email = "" then some (.error .emailRequired, s, ⟨0, 0⟩)
  else
    match genLoopAux (existsAppKey s) e fuel 0 with
    | none => none
    | some (cnt, app_key) =>
      let app_secret := token_hex e.secretBytes
      let created_at := strftimeOut e.now
      let client_data : ServiceDoc :=
        { client_email := client_email, app_key := app_key,
          app_secret := app_secret, created_at := created_at }
      if insertOk then
        some (.ok ⟨app_key, app_secret, created_at⟩, s ++ [client_data], ⟨cnt, 1⟩)
      else
        some (.error .insertFailed, s, ⟨cnt, 1⟩)

/-! ## Fetching client detail (embedding of `fetch_client_detail`) -/

/-- The outcomes of `fetch_client_detail` other than success: missing
client id (HTTP 400), the `InvalidToken` exception propagating out of
`decrypt_app_key` at line 177 (a category of its own, distinct from
the HTTP errors), and service not found (HTTP 404). -/
inductive FetchErr where
  | clientIdRequired
  | invalidToken
  | notFound
deriving Repr, DecidableEq

/-- Embedding of `fetch_client_detail` (lines 169-193): validate the
token, decrypt it with the process key, and look the decrypted app key
up in the collection. -/
def fetch_client_detail (encryptionKey : String) (client_id : String)
    (s : Collection) : Except FetchErr ServiceDoc :=
  if client_id = "" then .error .clientIdRequired
  else
    match decrypt_app_key encryptionKey client_id with
    | .error _ => .error .invalidToken
    | .ok decrypted_client_id =>
      match List.find? (fun d => d.app_key == decrypted_client_id) s with
      | none => .error .notFound
      | some d => .ok d

/-! ## Service registration (embedding of `add_client_service`) -/

/-- The request body of `add_client_service` (lines 85-90). -/
structure AddRequest where
  client_email : String
  app_key : String
  service_name : String
  service_domain : String
  service_uri : String
deriving Repr, DecidableEq

/-- The failures of `add_client_service`: one per missing field
(lines 98-107, all HTTP 400) and the no-op update (line 117). -/
inductive AddErr where
  | emailRequired
  | appKeyRequired
  | nameRequired
  | domainRequired
  | uriRequired
  | noChanges
deriving Repr, DecidableEq

/-- The filter of the `update_one` call at line 115. -/
def matchesEmailKey (client_email app_key : String) (d : ServiceDoc) : Bool :=
  d.client_email == client_email && d.app_key == app_key

/-- The `set` payload of line 109-115 applied to a document. -/
def applyServiceData (r : AddRequest) (d : ServiceDoc) : ServiceDoc :=
  { d with service_name := some r.service_name,
           service_domain := some r.service_domain,
           service_uri := some r.service_uri,
           is_approved := some 0 }

/-- Embedding of `add_client_service` (lines 94-119): validate the
fields, then `update_one` on the (email, app key) filter with the
service data; `modified_count == 0` is reported as the
"No changes were made" error. -/
def add_client_service (r : AddRequest) (s : Collection) :
    Except AddErr Unit × Collection :=
  if r.client_email = "" then (.error .emailRequired, s)
  else if r.app_key = "" then (.error .appKeyRequired, s)
  else if r.service_name = "" then (.error .nameRequired, s)
  else if r.service_domain = "" then (.error .domainRequired, s)
  else if r.service_uri = "" then (.error .uriRequired, s)
  else
    let res := updateFirst (matchesEmailKey r.client_email r.app_key)
      (applyServiceData r) s
    if res.2 = 0 then (.error .noChanges, res.1)
    else (.ok (), res.1)

/-! ## Service approval (embedding of `approve_service_key`) -/

/-- The failures of `approve_service_key`: missing fields (lines
206-209), unknown (email, app key) pair (line 215), and the no-op
update (line 223); all HTTP 400. -/
inductive ApproveErr where
  | emailRequired
  | clientIdRequired
  | notAssociated
  | noChanges
deriving Repr, DecidableEq

/-- The `set` payload of lines 217-219 applied to a document. -/
def setApproved (d : ServiceDoc) : ServiceDoc :=
  { d with is_approved := some 1 }

/-- Embedding of `approve_service_key` (lines 202-225): validate the
fields, check that the (email, app key) pair exists, then `update_one`
with `is_approved = 1`; `modified_count == 0` is reported as the
"No changes were made" error. -/
def approve_service_key (client_email client_id : String) (s : Collection) :
    Except ApproveErr Unit × Collection :=
  if client_email = "" then (.error .emailRequired, s)
  else if client_id = "" then (.error .clientIdRequired, s)
  else
    match List.find? (matchesEmailKey client_email client_id) s with
    | none => (.error .notAssociated, s)
    | some _ =>
      let res := updateFirst (matchesEmailKey client_email client_id) setApproved s
      if res.2 = 0 then (.error .noChanges, res.1)
      else (.ok (), res.1)

/-! ## Auxiliary definitions for the statements -/

/-- The numeric value of a zero-padded two-digit decimal string. -/
def twoDigitVal (c1 c2 : Char) : Nat :=
  10 * (c1.toNat - 48) + (c2.toNat - 48)

/-- The numeric value of a zero-padded four-digit decimal string. -/
def fourDigitVal (c1 c2 c3 c4 : Char) : Nat :=
  1000 * (c1.toNat - 48) + 100 * (c2.toNat - 48) +
  10 * (c3.toNat - 48) + (c4.toNat - 48)

/-- A sequence of issuance operations run against a collection: each
entry carries the entropy, loop fuel, request email and insert outcome
of one `generate_client_id` call; `none` propagates fuel exhaustion. -/
def runIssuances : List (GenEntropy × Nat × String × Bool) → Collection → Option Collection
  | [], s => some s
  | (e, fuel, email, ok) :: rest, s =>
    match generate_client_id e fuel email ok s with
    | none => none
    | some (_, s2, _) => runIssuances rest s2

/-! ## Concrete fixtures used by the witness theorems -/

/-- A concrete entropy assignment for one issuance. -/
def sampleEntropy : GenEntropy :=
  { uuidStr := fun _ => "u"
    timeStr := fun _ => "1.5"
    tok16Bytes := fun _ => []
    secretBytes := List.replicate 40 171
    now := ⟨3, 10, 2026, 7, 8, 9⟩ }

/-- The issuance payload produced from `sampleEntropy` on the first
candidate. -/
def sampleResult : GenResult :=
  ⟨keyCandidate sampleEntropy 0, token_hex sampleEntropy.secretBytes,
   strftimeOut sampleEntropy.now⟩

/-- The document persisted by that issuance. -/
def sampleDoc : ServiceDoc :=
  { client_email := "a@b.c"
    app_key := keyCandidate sampleEntropy 0
    app_secret := token_hex sampleEntropy.secretBytes
    created_at := strftimeOut sampleEntropy.now }

/-- A stored, not-yet-approved credential document. -/
def plainDoc : ServiceDoc :=
  { client_email := "a@b.c", app_key := "K1", app_secret := "S",
    created_at := "T" }

/-- A concrete registration request. -/
def sampleAddReq : AddRequest :=
  ⟨"a@b.c", "K1", "svc", "dom", "uri"⟩

/-- A stored document carrying exactly the service fields of
`sampleAddReq`, already approved. -/
def approvedDoc : ServiceDoc :=
  { client_email := "a@b.c", app_key := "K1", app_secret := "S",
    created_at := "T", service_name := some "svc",
    service_domain := some "dom", service_uri := some "uri",
    is_approved := some 0 }

/-- The same document with the approval flag set. -/
def approvedDoc1 : ServiceDoc :=
  { approvedDoc with is_approved := some 1 }

/-! ## Character and rendering lemmas -/

theorem hexDigitOf_lowerHex (m : Nat) : isLowerHexChar (hexDigitOf m) = true := by
  rcases m with _|_|_|_|_|_|_|_|_|_|_|_|_|_|_|_|m <;> rfl

theorem digitOf_digit (m : Nat) : isDigitChar (digitOf m) = true := by
  rcases m with _|_|_|_|_|_|_|_|_|_|m <;> rfl

theorem digitOf_toNat (m : Nat) (hm : m < 10) : (digitOf m).toNat = 48 + m := by
  rcases m with _|_|_|_|_|_|_|_|_|_|m <;> first | rfl | omega

theorem lowerHex_ne_dash (c : Char) (h : isLowerHexChar c = true) :
    (c == '-') = false := by
  by_cases hc : c = '-'
  · subst hc; exact absurd h (by decide)
  · simpa using hc

theorem length_flatMap_byteHex (B : List Nat) :
    (B.flatMap byteHexChars).length = 2 * B.length := by
  induction B with
  | nil => simp
  | cons b t ih => simp [byteHexChars, ih]; omega

theorem mem_flatMap_byteHex (B : List Nat) (c : Char)
    (hc : c ∈ B.flatMap byteHexChars) : isLowerHexChar c = true := by
  rw [List.mem_flatMap] at hc
  obtain ⟨b, -, hb⟩ := hc
  simp only [byteHexChars, List.mem_cons, List.mem_singleton] at hb
  rcases hb with h | h | h
  · rw [h]; exact hexDigitOf_lowerHex _
  · rw [h]; exact hexDigitOf_lowerHex _
  · exact absurd h (by simp)

theorem token_hex_length (B : List Nat) : (token_hex B).length = 2 * B.length :=
  length_flatMap_byteHex B

theorem token_hex_hex (B : List Nat) (c : Char) (hc : c ∈ (token_hex B).data) :
    isLowerHexChar c = true :=
  mem_flatMap_byteHex B c hc

theorem toBEbytes_length (k n : Nat) : (toBEbytes k n).length = k := by
  simp [toBEbytes]

theorem sha256bytes_length (msg : List Nat) : (sha256bytes msg).length = 32 := by
  simp [sha256bytes, hashToBytes, toBEbytes]

theorem sha256hex_length (s : String) : (sha256hex s).length = 64 := by
  show ((sha256bytes (utf8Encode s)).flatMap byteHexChars).length = 64
  rw [length_flatMap_byteHex, sha256bytes_length]

theorem sha256hex_hex (s : String) (c : Char) (hc : c ∈ (sha256hex s).data) :
    isLowerHexChar c = true :=
  mem_flatMap_byteHex _ c hc

/-! ## Regrouping format lemmas -/

theorem joinDash_length (ps : List String) (hne : ps ≠ [])
    (h8 : ∀ p ∈ ps, p.length = 8) : (joinDash ps).length = 9 * ps.length - 1 := by
  induction ps with
  | nil => exact absurd rfl hne
  | cons p ps ih =>
    cases ps with
    | nil => simpa [joinDash] using h8 p (by simp)
    | cons q qs =>
      have hp : p.length = 8 := h8 p (by simp)
      have htail : (joinDash (q :: qs)).length = 9 * (q :: qs).length - 1 :=
        ih (by simp) (fun x hx => h8 x (by simp [hx]))
      show (p ++ "-" ++ joinDash (q :: qs)).length = _
      rw [String.length_append, String.length_append, hp, htail]
      have hd : ("-" : String).length = 1 := rfl
      rw [hd]
      simp only [List.length_cons]
      omega

theorem joinDash_dashes (ps : List String) (hne : ps ≠ [])
    (hnd : ∀ p ∈ ps, ∀ c ∈ p.data, (c == '-') = false) :
    ((joinDash ps).data.filter (fun c => c == '-')).length = ps.length - 1 := by
  induction ps with
  | nil => exact absurd rfl hne
  | cons p ps ih =>
    have hpfil : p.data.filter (fun c => c == '-') = [] :=
      List.filter_eq_nil_iff.mpr (by intro c hc; simp [hnd p (by simp) c hc])
    cases ps with
    | nil => simp [joinDash, hpfil]
    | cons q qs =>
      have htail : ((joinDash (q :: qs)).data.filter (fun c => c == '-')).length
          = (q :: qs).length - 1 :=
        ih (by simp) (fun x hx => hnd x (by simp [hx]))
      show (((p ++ "-" ++ joinDash (q :: qs)).data.filter (fun c => c == '-'))).length = _
      rw [String.data_append, String.data_append, List.filter_append,
        List.filter_append, hpfil]
      simp only [List.length_append, List.length_nil]
      have : ("-".data.filter (fun c => c == '-')).length = 1 := by decide
      rw [this, htail]
      simp
      omega

theorem slices8_length (cs : List Char) (h : cs.length = 64) :
    (slices8 cs).length = 8 := by
  simp [slices8, h]

theorem slices8_mem (cs : List Char) (h : cs.length = 64) (part : List Char)
    (hp : part ∈ slices8 cs) : part.length = 8 ∧ ∀ c ∈ part, c ∈ cs := by
  simp only [slices8, List.mem_map, List.mem_range, h] at hp
  obtain ⟨j, hj, hpart⟩ := hp
  constructor
  · rw [← hpart, List.length_take, List.length_drop, h]
    omega
  · intro c hc
    rw [← hpart] at hc
    exact List.drop_subset _ _ (List.take_subset _ _ hc)

theorem regroup_format (s : String) (hlen : s.length = 64)
    (hhex : ∀ c ∈ s.data, isLowerHexChar c = true) :
    ∃ parts : List String, parts.length = 8 ∧
      (∀ p ∈ parts, p.length = 8 ∧ ∀ c ∈ p.data, isLowerHexChar c = true) ∧
      regroupDash8 s = joinDash parts ∧
      (regroupDash8 s).length = 71 ∧
      ((regroupDash8 s).data.filter (fun c => c == '-')).length = 7 := by
  have hdata : s.data.length = 64 := hlen
  refine ⟨(slices8 s.data).map String.mk, ?_, ?_, rfl, ?_, ?_⟩
  · simp [slices8_length s.data hdata]
  · intro p hp
    rw [List.mem_map] at hp
    obtain ⟨part, hpart, hmk⟩ := hp
    obtain ⟨hl, hsub⟩ := slices8_mem s.data hdata part hpart
    exact ⟨by rw [← hmk]; exact hl, by intro c hc; rw [← hmk] at hc; exact hhex c (hsub c hc)⟩
  · rw [regroupDash8, joinDash_length]
    · simp [slices8_length s.data hdata]
    · intro h
      have h8 := slices8_length s.data hdata
      rw [List.map_eq_nil_iff] at h
      rw [h] at h8
      simp at h8
    · intro p hp
      rw [List.mem_map] at hp
      obtain ⟨part, hpart, hmk⟩ := hp
      rw [← hmk]
      exact (slices8_mem s.data hdata part hpart).1
  · rw [regroupDash8, joinDash_dashes]
    · simp [slices8_length s.data hdata]
    · intro h
      have h8 := slices8_length s.data hdata
      rw [List.map_eq_nil_iff] at h
      rw [h] at h8
      simp at h8
    · intro p hp c hc
      rw [List.mem_map] at hp
      obtain ⟨part, hpart, hmk⟩ := hp
      rw [← hmk] at hc
      exact lowerHex_ne_dash c (hhex c ((slices8_mem s.data hdata part hpart).2 c hc))

theorem keyCandidate_format (e : GenEntropy) (i : Nat) :
    ∃ parts : List String, parts.length = 8 ∧
      (∀ p ∈ parts, p.length = 8 ∧ ∀ c ∈ p.data, isLowerHexChar c = true) ∧
      keyCandidate e i = joinDash parts ∧
      (keyCandidate e i).length = 71 ∧
      ((keyCandidate e i).data.filter (fun c => c == '-')).length = 7 :=
  regroup_format _ (sha256hex_length _) (sha256hex_hex _)

/-! ## Collision-avoidance loop lemmas -/

theorem genLoopAux_success (ex : String → Bool) (e : GenEntropy) :
    ∀ fuel j c k, genLoopAux ex e fuel j = some (c, k) →
      ex k = false ∧ ∃ i, c = i + 1 ∧ k = keyCandidate e i := by
  intro fuel
  induction fuel with
  | zero => intro j c k h; exact absurd h (by simp [genLoopAux])
  | succ fuel ih =>
    intro j c k h
    rw [genLoopAux] at h
    by_cases hex : ex (keyCandidate e j) = true
    · rw [if_pos hex] at h
      exact ih (j + 1) c k h
    · rw [if_neg hex] at h
      injection h with h
      injection h with hc hk
      refine ⟨?_, j, hc.symm, hk.symm⟩
      rw [← hk]
      exact Bool.not_eq_true _ ▸ hex

theorem genLoopAux_count (ex : String → Bool) (e : GenEntropy) (N : Nat)
    (h1 : ∀ i, i < N → ex (keyCandidate e i) = true)
    (h2 : ∀ i, N ≤ i → ex (keyCandidate e i) = false) :
    ∀ fuel j, j ≤ N → N - j < fuel →
      genLoopAux ex e fuel j = some (N + 1, keyCandidate e N) := by
  intro fuel
  induction fuel with
  | zero => intro j hj hf; omega
  | succ fuel ih =>
    intro j hj hf
    by_cases hjN : j = N
    · subst hjN
      rw [genLoopAux, if_neg (by rw [h2 j (le_refl j)]; simp)]
    · have hlt : j < N := lt_of_le_of_ne hj hjN
      rw [genLoopAux, if_pos (h1 j hlt)]
      exact ih (j + 1) (by omega) (by omega)

/-! ## `update_one` decomposition lemmas -/

theorem updateFirst_decomp (p : ServiceDoc → Bool) (f : ServiceDoc → ServiceDoc) :
    ∀ s s' n, updateFirst p f s = (s', n) →
      ((∀ d ∈ s, p d = false) ∧ s' = s ∧ n = 0) ∨
      (∃ pre d post, s = pre ++ d :: post ∧ (∀ x ∈ pre, p x = false) ∧
        p d = true ∧ s' = pre ++ f d :: post ∧
        n = (if f d = d then 0 else 1)) := by
  intro s
  induction s with
  | nil =>
    intro s' n h
    rw [updateFirst] at h
    injection h with h1 h2
    exact Or.inl ⟨by simp, h1.symm, h2.symm⟩
  | cons d ds ih =>
    intro s' n h
    rw [updateFirst] at h
    by_cases hd : p d = true
    · rw [if_pos hd] at h
      injection h with h1 h2
      exact Or.inr ⟨[], d, ds, by simp, by simp, hd, by simp [h1.symm], h2.symm⟩
    · rw [if_neg hd] at h
      injection h with h1 h2
      rcases ih (updateFirst p f ds).1 (updateFirst p f ds).2 rfl with
        ⟨hall, hs, hn⟩ | ⟨pre, x, post, hsplit, hpre, hx, hs, hn⟩
      · refine Or.inl ⟨?_, ?_, ?_⟩
        · intro y hy
          rcases List.mem_cons.mp hy with hy | hy
          · rw [hy]; exact Bool.not_eq_true _ ▸ hd
          · exact hall y hy
        · rw [← h1, hs]
        · rw [← h2, hn]
      · refine Or.inr ⟨d :: pre, x, post, by rw [hsplit]; rfl, ?_, hx, ?_, by rw [← h2, hn]⟩
        · intro y hy
          rcases List.mem_cons.mp hy with hy | hy
          · rw [hy]; exact Bool.not_eq_true _ ▸ hd
          · exact hpre y hy
        · rw [← h1, hs]; rfl

theorem updateFirst_length (p : ServiceDoc → Bool) (f : ServiceDoc → ServiceDoc) :
    ∀ s, (updateFirst p f s).1.length = s.length := by
  intro s
  induction s with
  | nil => rfl
  | cons d ds ih =>
    rw [updateFirst]
    by_cases hd : p d = true
    · rw [if_pos hd]; simp
    · rw [if_neg hd]; simpa using ih

theorem updateFirst_no_match (p : ServiceDoc → Bool) (f : ServiceDoc → ServiceDoc)
    (s : Collection) (h : ∀ d ∈ s, p d = false) : updateFirst p f s = (s, 0) := by
  induction s with
  | nil => rfl
  | cons d ds ih =>
    rw [updateFirst, if_neg (by rw [h d (by simp)]; simp)]
    rw [ih (fun x hx => h x (by simp [hx]))]

/-! ## First-match decomposition of `find_one` -/

theorem find?_decomp {α : Type} (p : α → Bool) :
    ∀ (l : List α) (x : α), List.find? p l = some x →
      ∃ pre post, l = pre ++ x :: post ∧ (∀ y ∈ pre, p y = false) ∧ p x = true := by
  intro l
  induction l with
  | nil => intro x h; exact absurd h (by simp)
  | cons d ds ih =>
    intro x h
    by_cases hd : p d = true
    · rw [List.find?_cons_of_pos _ hd] at h
      injection h with h
      exact ⟨[], ds, by simp [h], by simp, h ▸ hd⟩
    · rw [List.find?_cons_of_neg _ hd] at h
      obtain ⟨pre, post, hsplit, hpre, hx⟩ := ih x h
      refine ⟨d :: pre, post, by rw [hsplit]; rfl, ?_, hx⟩
      intro y hy
      rcases List.mem_cons.mp hy with hy | hy
      · rw [hy]; exact Bool.not_eq_true _ ▸ hd
      · exact hpre y hy

/-! ## Codec parsing lemmas -/

theorem dropLead_append (p : List Char) : ∀ r, dropLead p (p ++ r) = some r := by
  induction p with
  | nil => intro r; rfl
  | cons a ps ih => intro r; simp [dropLead, ih]

theorem splitFirstDot_append (k : List Char) (hk : '.' ∉ k) :
    ∀ r, splitFirstDot (k ++ '.' :: r) = some (k, r) := by
  induction k with
  | nil => intro r; simp [splitFirstDot]
  | cons c cs ih =>
    intro r
    have hc : ¬ c = '.' := fun h => hk (by simp [h])
    have hcs : '.' ∉ cs := fun h => hk (by simp [h])
    simp only [List.cons_append, splitFirstDot, if_neg hc, List.append_eq, ih hcs r]

theorem fernetDecrypt_encrypt (key nonce pt : String)
    (hkey : '.' ∉ key.data) (hnonce : '.' ∉ nonce.data) :
    fernetDecrypt key (fernetEncrypt key nonce pt) = .ok pt := by
  have hdata : (fernetEncrypt key nonce pt).data =
      "FT1.".data ++ (key.data ++ '.' :: (nonce.data ++ '.' :: pt.data)) := by
    show ("FT1." ++ key ++ "." ++ nonce ++ "." ++ pt).data = _
    rw [String.data_append, String.data_append, String.data_append,
      String.data_append]
    simp
  have h1 : dropLead "FT1.".data (fernetEncrypt key nonce pt).data =
      some (key.data ++ '.' :: (nonce.data ++ '.' :: pt.data)) := by
    rw [hdata]; exact dropLead_append _ _
  have h2 : splitFirstDot (key.data ++ '.' :: (nonce.data ++ '.' :: pt.data)) =
      some (key.data, nonce.data ++ '.' :: pt.data) :=
    splitFirstDot_append key.data hkey _
  have h3 : splitFirstDot (nonce.data ++ '.' :: pt.data) = some (nonce.data, pt.data) :=
    splitFirstDot_append nonce.data hnonce _
  simp only [fernetDecrypt, h1, h2, h3, if_pos]

/-! ## Distinctness helpers -/

/-- The stored identifiers of the collection, in order. -/
def appKeys (s : Collection) : List String :=
  s.map (fun d => d.app_key)

theorem existsAppKey_false_not_mem (s : Collection) (k : String)
    (h : existsAppKey s k = false) : k ∉ appKeys s := by
  intro hmem
  rw [appKeys, List.mem_map] at hmem
  obtain ⟨d, hd, hk⟩ := hmem
  rw [existsAppKey] at h
  cases hfind : List.find? (fun d => d.app_key == k) s with
  | none =>
    rw [List.find?_eq_none] at hfind
    exact hfind d hd (by simp [hk])
  | some x => rw [hfind] at h; simp at h

theorem nodup_append_singleton (l : List String) (a : String)
    (h : l.Nodup) (ha : a ∉ l) : (l ++ [a]).Nodup := by
  rw [List.nodup_append]
  exact ⟨h, List.nodup_singleton a, by intro x hx hxa; rw [List.mem_singleton] at hxa; exact ha (hxa ▸ hx)⟩

/-! ## Structure of a successful issuance -/

theorem generate_success_shape (e : GenEntropy) (fuel : Nat) (email : String)
    (ok : Bool) (s : Collection) (r : GenResult) (s2 : Collection) (tr : GenTrace)
    (h : generate_client_id e fuel email ok s = some (.ok r, s2, tr)) :
    ∃ i, r = ⟨keyCandidate e i, token_hex e.secretBytes, strftimeOut e.now⟩ ∧
      s2 = s ++ [{ client_email := email, app_key := keyCandidate e i,
                   app_secret := token_hex e.secretBytes,
                   created_at := strftimeOut e.now }] ∧
      existsAppKey s (keyCandidate e i) = false ∧ ok = true ∧ email ≠ "" := by
  by_cases hemail : email = ""
  · simp only [generate_client_id, if_pos hemail] at h
    injection h with h
    injection h with h1 h2
    exact absurd h1 (by simp)
  · rcases hloop : genLoopAux (existsAppKey s) e fuel 0 with _ | ⟨cnt, k⟩
    · simp only [generate_client_id, if_neg hemail, hloop] at h
      exact Option.noConfusion h
    · simp only [generate_client_id, if_neg hemail, hloop] at h
      cases ok with
      | false =>
        simp only [Bool.false_eq_true, if_false] at h
        injection h with h
        injection h with h1 h2
        exact absurd h1 (by simp)
      | true =>
        simp only [if_true] at h
        injection h with h
        injection h with h1 h2
        injection h2 with h2 h3
        injection h1 with h1
        obtain ⟨hex, i, hcnt, hk⟩ := genLoopAux_success (existsAppKey s) e fuel 0 cnt k hloop
        subst hk
        refine ⟨i, h1.symm, h2.symm, hex, rfl, hemail⟩

/-! ## Distinctness preservation of one issuance -/

theorem generate_nodup_step (e : GenEntropy) (fuel : Nat) (email : String)
    (ok : Bool) (s : Collection)
    (out : Except GenErr GenResult × Collection × GenTrace)
    (h : generate_client_id e fuel email ok s = some out)
    (hnd : (appKeys s).Nodup) : (appKeys out.2.1).Nodup := by
  by_cases hemail : email = ""
  · simp only [generate_client_id, if_pos hemail] at h
    injection h with h
    rw [← h]
    exact hnd
  · rcases hloop : genLoopAux (existsAppKey s) e fuel 0 with _ | ⟨cnt, k⟩
    · simp only [generate_client_id, if_neg hemail, hloop] at h
      exact Option.noConfusion h
    · simp only [generate_client_id, if_neg hemail, hloop] at h
      cases ok with
      | false =>
        simp only [Bool.false_eq_true, if_false] at h
        injection h with h
        rw [← h]
        exact hnd
      | true =>
        simp only [if_true] at h
        injection h with h
        rw [← h]
        have hex : existsAppKey s k = false :=
          (genLoopAux_success (existsAppKey s) e fuel 0 cnt k hloop).1
        simp only [appKeys, List.map_append, List.map_cons, List.map_nil]
        exact nodup_append_singleton _ _ hnd (existsAppKey_false_not_mem s k hex)

/-! ## `update_one` on the first matching document -/

theorem updateFirst_first_match (p : ServiceDoc → Bool) (f : ServiceDoc → ServiceDoc) :
    ∀ pre d post, (∀ x ∈ pre, p x = false) → p d = true →
      updateFirst p f (pre ++ d :: post) =
        (pre ++ f d :: post, if f d = d then 0 else 1) := by
  intro pre
  induction pre with
  | nil =>
    intro d post hpre hd
    simp only [List.nil_append, updateFirst, if_pos hd]
  | cons x xs ih =>
    intro d post hpre hd
    have hx : p x = false := hpre x (by simp)
    have ihx := ih d post (fun y hy => hpre y (by simp [hy])) hd
    simp only [List.cons_append, updateFirst, hx, Bool.false_eq_true, if_false,
      List.append_eq, ihx]

/-! ## Layout of the rendered timestamp -/

theorem strftimeOut_data (t : DateTimeParts) :
    (strftimeOut t).data =
      [digitOf ((t.day / 10) % 10), digitOf (t.day % 10)] ++ '-' ::
      [digitOf ((t.month / 10) % 10), digitOf (t.month % 10)] ++ '-' ::
      [digitOf ((t.year / 1000) % 10), digitOf ((t.year / 100) % 10),
       digitOf ((t.year / 10) % 10), digitOf (t.year % 10)] ++ ' ' ::
      [digitOf ((t.hour / 10) % 10), digitOf (t.hour % 10)] ++ ':' ::
      [digitOf ((t.minute / 10) % 10), digitOf (t.minute % 10)] ++ ':' ::
      [digitOf ((t.second / 10) % 10), digitOf (t.second % 10)] := by
  simp [strftimeOut, pad2, pad4, String.data_append]

theorem pad2_decode (x : Nat) (hx : x < 100) :
    twoDigitVal (digitOf ((x / 10) % 10)) (digitOf (x % 10)) = x := by
  rw [twoDigitVal, digitOf_toNat ((x / 10) % 10) (by omega),
    digitOf_toNat (x % 10) (by omega)]
  omega

theorem pad4_decode (x : Nat) (hx : x < 10000) :
    fourDigitVal (digitOf ((x / 1000) % 10)) (digitOf ((x / 100) % 10))
      (digitOf ((x / 10) % 10)) (digitOf (x % 10)) = x := by
  rw [fourDigitVal, digitOf_toNat ((x / 1000) % 10) (by omega),
    digitOf_toNat ((x / 100) % 10) (by omega),
    digitOf_toNat ((x / 10) % 10) (by omega),
    digitOf_toNat (x % 10) (by omega)]
  omega

/-! ## Claim theorems -/

/-- Claim C1: for every identifier string x, decrypting the encryption
of x with the same process-wide key returns x, whatever per-call nonce
the cipher draws — `decrypt_app_key (encrypt_app_key x)` is `x` even
though `encrypt_app_key` may produce different tokens on different
calls. The two membership hypotheses are artifacts of the token
encoding of the Fernet model (its key and nonce fields are
dot-delimited; real Fernet keys and nonces are base64, hence dot-free). -/
theorem claim_C1_roundtrip (key nonce x : String)
    (hkey : '.' ∉ key.data) (hnonce : '.' ∉ nonce.data) :
    decrypt_app_key key (encrypt_app_key key nonce x) = .ok x :=
  fernetDecrypt_encrypt key nonce x hkey hnonce

/-- Witness for C1 at the concrete scenario of the spec:
wrapping "abc123-def456" and unwrapping the result returns it, for two
distinct nonces (so distinct tokens) under the same key. -/
theorem claim_C1_witness :
    decrypt_app_key "K0" (encrypt_app_key "K0" "N1" "abc123-def456") =
      .ok "abc123-def456" ∧
    decrypt_app_key "K0" (encrypt_app_key "K0" "N2" "abc123-def456") =
      .ok "abc123-def456" :=
  ⟨claim_C1_roundtrip "K0" "N1" "abc123-def456" (by decide) (by decide),
   claim_C1_roundtrip "K0" "N2" "abc123-def456" (by decide) (by decide)⟩

/-- Claim C4: for every opaque token on which Fernet decryption fails
(malformed, wrong key, or failed integrity), `fetch_client_detail`
reports the `InvalidToken` category, which is distinct from the
not-found and validation categories; moreover the spec scenario
`unwrap("not-a-valid-token")` fails with `InvalidToken`, and a token
produced under a different key fails the same way. (The HTTP envelope
that carries the propagating exception is outside the embedded core.) -/
theorem claim_C4_invalid_token (key tok : String) (s : Collection)
    (hne : tok ≠ "") (hbad : decrypt_app_key key tok = .error .invalidToken) :
    fetch_client_detail key tok s = .error .invalidToken ∧
    FetchErr.invalidToken ≠ FetchErr.notFound ∧
    FetchErr.invalidToken ≠ FetchErr.clientIdRequired ∧
    decrypt_app_key key "not-a-valid-token" = .error .invalidToken ∧
    (∀ key2 nonce x, '.' ∉ key2.data → '.' ∉ nonce.data → key2 ≠ key →
      decrypt_app_key key (encrypt_app_key key2 nonce x) = .error .invalidToken) := by
  refine ⟨?_, by decide, by decide, rfl, ?_⟩
  · simp only [fetch_client_detail, if_neg hne, hbad]
  · intro key2 nonce x hk2 hn hne2
    have h1 : dropLead "FT1.".data (fernetEncrypt key2 nonce x).data =
        some (key2.data ++ '.' :: (nonce.data ++ '.' :: x.data)) := by
      have hdata : (fernetEncrypt key2 nonce x).data =
          "FT1.".data ++ (key2.data ++ '.' :: (nonce.data ++ '.' :: x.data)) := by
        show ("FT1." ++ key2 ++ "." ++ nonce ++ "." ++ x).data = _
        rw [String.data_append, String.data_append, String.data_append,
          String.data_append]
        simp
      rw [hdata]
      exact dropLead_append _ _
    have h2 : splitFirstDot (key2.data ++ '.' :: (nonce.data ++ '.' :: x.data)) =
        some (key2.data, nonce.data ++ '.' :: x.data) :=
      splitFirstDot_append key2.data hk2 _
    have h3 : splitFirstDot (nonce.data ++ '.' :: x.data) =
        some (nonce.data, x.data) :=
      splitFirstDot_append nonce.data hn _
    have hdne : key2.data ≠ key.data := by
      intro hdeq
      exact hne2 (congrArg String.mk hdeq)
    show fernetDecrypt key (fernetEncrypt key2 nonce x) = .error .invalidToken
    simp only [fernetDecrypt, h1, h2, h3, if_neg hdne]

/-- Witness for C4 at the concrete scenario of the spec: fetching with
token "not-a-valid-token" (which fails decryption) reports
`InvalidToken`, not the not-found category. -/
theorem claim_C4_witness :
    fetch_client_detail "K0" "not-a-valid-token" [] = .error .invalidToken ∧
    FetchErr.invalidToken ≠ FetchErr.notFound :=
  ⟨(claim_C4_invalid_token "K0" "not-a-valid-token" [] (by decide) rfl).1,
   (claim_C4_invalid_token "K0" "not-a-valid-token" [] (by decide) rfl).2.1⟩

/-- Claim C3: for every N, if the existence check reports a document
present for the first N candidate identifiers and absent thereafter,
the collision-avoidance loop computes exactly N+1 candidates and then
succeeds with the (N+1)-st candidate — in particular it terminates
under that precondition (any fuel beyond N suffices, so the unbounded
Python loop finishes after exactly N+1 iterations). -/
theorem claim_C3_loop_count (ex : String → Bool) (e : GenEntropy) (N fuel : Nat)
    (h1 : ∀ i, i < N → ex (keyCandidate e i) = true)
    (h2 : ∀ i, N ≤ i → ex (keyCandidate e i) = false)
    (hfuel : N < fuel) :
    genLoopAux ex e fuel 0 = some (N + 1, keyCandidate e N) :=
  genLoopAux_count ex e N h1 h2 fuel 0 (Nat.zero_le N) (by omega)

/-- Witness for C3 with N = 0 (check always reports absent): the loop
computes exactly one candidate. -/
theorem claim_C3_witness :
    genLoopAux (fun _ => false) sampleEntropy 1 0 =
      some (0 + 1, keyCandidate sampleEntropy 0) :=
  claim_C3_loop_count (fun _ => false) sampleEntropy 0 1
    (fun i hi => absurd hi (Nat.not_lt_zero i))
    (fun _ _ => rfl) (by omega)

/-- Claim C2: no two persisted credentials share the same identifier:
`generate_client_id` inserts only after the existence check reports
the candidate absent, so any sequence of issuance operations starting
from a collection with pairwise-distinct app keys (in particular the
empty one) leaves the stored app keys pairwise distinct. -/
theorem claim_C2_unique_keys (ops : List (GenEntropy × Nat × String × Bool)) :
    ∀ s s2, (appKeys s).Nodup → runIssuances ops s = some s2 →
      (appKeys s2).Nodup := by
  induction ops with
  | nil =>
    intro s s2 hnd h
    injection h with h
    rw [← h]
    exact hnd
  | cons op rest ih =>
    intro s s2 hnd h
    obtain ⟨e, fuel, email, ok⟩ := op
    cases hgen : generate_client_id e fuel email ok s with
    | none =>
      simp only [runIssuances, hgen] at h
      exact Option.noConfusion h
    | some out =>
      obtain ⟨res, s1, tg⟩ := out
      simp only [runIssuances, hgen] at h
      exact ih s1 s2
        (generate_nodup_step e fuel email ok s (res, s1, tg) hgen hnd) h

/-- Witness for C2: one concrete issuance into the empty collection
leaves distinct stored app keys. -/
theorem claim_C2_witness : (appKeys [sampleDoc]).Nodup :=
  claim_C2_unique_keys [(sampleEntropy, 1, "a@b.c", true)] [] [sampleDoc]
    (by simp [appKeys]) rfl

/-- Claim C8: when the persistence insert fails during issuance,
`generate_client_id` reports the persistence failure (HTTP 500) to the
caller, leaves the collection unchanged, makes exactly one insert
attempt (no retry), and the candidate count is exactly what the
pre-insert loop computed (the generation loop is not re-entered). -/
theorem claim_C8_insert_failure (e : GenEntropy) (fuel : Nat) (email : String)
    (s : Collection) (cnt : Nat) (k : String)
    (hemail : email ≠ "")
    (hloop : genLoopAux (existsAppKey s) e fuel 0 = some (cnt, k)) :
    generate_client_id e fuel email false s =
      some (.error .insertFailed, s, ⟨cnt, 1⟩) ∧
    GenErr.insertFailed.code = 500 := by
  constructor
  · simp only [generate_client_id, if_neg hemail, hloop, Bool.false_eq_true,
      if_false]
  · rfl

/-- Witness for C8: a failing insert on the empty collection after a
one-iteration loop reports the persistence failure with the collection
unchanged, one insert attempt and one candidate computed. -/
theorem claim_C8_witness :
    generate_client_id sampleEntropy 1 "a@b.c" false [] =
      some (.error .insertFailed, [], ⟨1, 1⟩) ∧
    GenErr.insertFailed.code = 500 :=
  claim_C8_insert_failure sampleEntropy 1 "a@b.c" [] 1
    (keyCandidate sampleEntropy 0) (by decide) rfl

/-- Claim C5: every identifier produced by a successful
`generate_client_id` is the dash-regrouping of a lowercase-hex SHA-256
digest: it splits as 8 dash-separated segments of 8 lowercase-hex
characters each, has total length exactly 71, and contains exactly 7
dashes. -/
theorem claim_C5_key_format (e : GenEntropy) (fuel : Nat) (email : String)
    (ok : Bool) (s : Collection) (r : GenResult) (s2 : Collection) (tr : GenTrace)
    (h : generate_client_id e fuel email ok s = some (.ok r, s2, tr)) :
    (∃ i, r.app_key = regroupDash8 (sha256hex (combineData e i))) ∧
    ∃ parts : List String, parts.length = 8 ∧
      (∀ p ∈ parts, p.length = 8 ∧ ∀ c ∈ p.data, isLowerHexChar c = true) ∧
      r.app_key = joinDash parts ∧ r.app_key.length = 71 ∧
      (r.app_key.data.filter (fun c => c == '-')).length = 7 := by
  obtain ⟨i, hr, -, -, -, -⟩ := generate_success_shape e fuel email ok s r s2 tr h
  rw [hr]
  exact ⟨⟨i, rfl⟩, keyCandidate_format e i⟩

/-- Witness for C5 at a concrete successful issuance. -/
theorem claim_C5_witness :
    (∃ i, sampleResult.app_key = regroupDash8 (sha256hex (combineData sampleEntropy i))) ∧
    ∃ parts : List String, parts.length = 8 ∧
      (∀ p ∈ parts, p.length = 8 ∧ ∀ c ∈ p.data, isLowerHexChar c = true) ∧
      sampleResult.app_key = joinDash parts ∧ sampleResult.app_key.length = 71 ∧
      (sampleResult.app_key.data.filter (fun c => c == '-')).length = 7 :=
  claim_C5_key_format sampleEntropy 1 "a@b.c" true [] sampleResult
    [sampleDoc] ⟨1, 1⟩ rfl

/-- Claim C6: the secret produced by a successful `generate_client_id`
is exactly the hexadecimal rendering of the 40 fresh random bytes —
80 lowercase hex characters when the entropy source supplies 40 bytes —
and it is returned and persisted verbatim, never passed through the
codec (the stored document holds the same raw string). -/
theorem claim_C6_secret_format (e : GenEntropy) (fuel : Nat) (email : String)
    (ok : Bool) (s : Collection) (r : GenResult) (s2 : Collection) (tr : GenTrace)
    (h : generate_client_id e fuel email ok s = some (.ok r, s2, tr)) :
    r.app_secret = token_hex e.secretBytes ∧
    (∃ d, s2 = s ++ [d] ∧ d.app_secret = r.app_secret) ∧
    (e.secretBytes.length = 40 →
      r.app_secret.length = 80 ∧ ∀ c ∈ r.app_secret.data, isLowerHexChar c = true) := by
  obtain ⟨i, hr, hs2, -, -, -⟩ := generate_success_shape e fuel email ok s r s2 tr h
  rw [hr]
  refine ⟨rfl, ⟨_, hs2, rfl⟩, fun h40 => ⟨?_, ?_⟩⟩
  · show (token_hex e.secretBytes).length = 80
    rw [token_hex_length, h40]
  · exact fun c hc => token_hex_hex e.secretBytes c hc

/-- Witness for C6 at a concrete successful issuance with 40 supplied
bytes. -/
theorem claim_C6_witness :
    sampleResult.app_secret = token_hex sampleEntropy.secretBytes ∧
    (∃ d, ([sampleDoc] : Collection) = [] ++ [d] ∧ d.app_secret = sampleResult.app_secret) ∧
    (sampleEntropy.secretBytes.length = 40 →
      sampleResult.app_secret.length = 80 ∧
      ∀ c ∈ sampleResult.app_secret.data, isLowerHexChar c = true) :=
  claim_C6_secret_format sampleEntropy 1 "a@b.c" true [] sampleResult
    [sampleDoc] ⟨1, 1⟩ rfl

/-- Claim C7: the timestamp recorded by a successful
`generate_client_id` is the clock reading rendered as
`DD-MM-YYYY HH:MM:SS`: two-digit zero-padded day, month, hour, minute
and second fields and a four-digit year in that layout, and each
two-digit field decodes back to the recorded value whenever the clock
reading is in range — in particular the hour field is the unmodified
24-hour value. -/
theorem claim_C7_timestamp_format (e : GenEntropy) (fuel : Nat) (email : String)
    (ok : Bool) (s : Collection) (r : GenResult) (s2 : Collection) (tr : GenTrace)
    (h : generate_client_id e fuel email ok s = some (.ok r, s2, tr)) :
    r.created_at = strftimeOut e.now ∧
    ∃ D M Y H Mi S : List Char,
      r.created_at.data =
        D ++ '-' :: M ++ '-' :: Y ++ ' ' :: H ++ ':' :: Mi ++ ':' :: S ∧
      D.length = 2 ∧ M.length = 2 ∧ Y.length = 4 ∧ H.length = 2 ∧
      Mi.length = 2 ∧ S.length = 2 ∧
      (∀ c, (c ∈ D ∨ c ∈ M ∨ c ∈ Y ∨ c ∈ H ∨ c ∈ Mi ∨ c ∈ S) →
        isDigitChar c = true) ∧
      (e.now.day < 100 → twoDigitVal (D.getD 0 '0') (D.getD 1 '0') = e.now.day) ∧
      (e.now.month < 100 → twoDigitVal (M.getD 0 '0') (M.getD 1 '0') = e.now.month) ∧
      (e.now.year < 10000 →
        fourDigitVal (Y.getD 0 '0') (Y.getD 1 '0') (Y.getD 2 '0') (Y.getD 3 '0') =
          e.now.year) ∧
      (e.now.hour < 24 → twoDigitVal (H.getD 0 '0') (H.getD 1 '0') = e.now.hour) ∧
      (e.now.minute < 60 → twoDigitVal (Mi.getD 0 '0') (Mi.getD 1 '0') = e.now.minute) ∧
      (e.now.second < 60 → twoDigitVal (S.getD 0 '0') (S.getD 1 '0') = e.now.second) := by
  obtain ⟨i, hr, -, -, -, -⟩ := generate_success_shape e fuel email ok s r s2 tr h
  rw [hr]
  refine ⟨rfl, [digitOf ((e.now.day / 10) % 10), digitOf (e.now.day % 10)],
    [digitOf ((e.now.month / 10) % 10), digitOf (e.now.month % 10)],
    [digitOf ((e.now.year / 1000) % 10), digitOf ((e.now.year / 100) % 10),
     digitOf ((e.now.year / 10) % 10), digitOf (e.now.year % 10)],
    [digitOf ((e.now.hour / 10) % 10), digitOf (e.now.hour % 10)],
    [digitOf ((e.now.minute / 10) % 10), digitOf (e.now.minute % 10)],
    [digitOf ((e.now.second / 10) % 10), digitOf (e.now.second % 10)],
    strftimeOut_data e.now, rfl, rfl, rfl, rfl, rfl, rfl, ?_, ?_, ?_, ?_, ?_, ?_, ?_⟩
  · intro c hc
    simp only [List.mem_cons, List.not_mem_nil, or_false] at hc
    rcases hc with (rfl | rfl) | (rfl | rfl) | (rfl | rfl | rfl | rfl) |
      (rfl | rfl) | (rfl | rfl) | (rfl | rfl) <;> exact digitOf_digit _
  · intro hd; exact pad2_decode e.now.day hd
  · intro hm; exact pad2_decode e.now.month hm
  · intro hy; exact pad4_decode e.now.year hy
  · intro hh; exact pad2_decode e.now.hour (by omega)
  · intro hmi; exact pad2_decode e.now.minute (by omega)
  · intro hs2; exact pad2_decode e.now.second (by omega)

/-- Witness for C7 at a concrete successful issuance with clock reading
03-10-2026 07:08:09. -/
theorem claim_C7_witness :
    sampleResult.created_at = strftimeOut sampleEntropy.now ∧
    ∃ D M Y H Mi S : List Char,
      sampleResult.created_at.data =
        D ++ '-' :: M ++ '-' :: Y ++ ' ' :: H ++ ':' :: Mi ++ ':' :: S ∧
      D.length = 2 ∧ M.length = 2 ∧ Y.length = 4 ∧ H.length = 2 ∧
      Mi.length = 2 ∧ S.length = 2 ∧
      (∀ c, (c ∈ D ∨ c ∈ M ∨ c ∈ Y ∨ c ∈ H ∨ c ∈ Mi ∨ c ∈ S) →
        isDigitChar c = true) ∧
      (sampleEntropy.now.day < 100 →
        twoDigitVal (D.getD 0 '0') (D.getD 1 '0') = sampleEntropy.now.day) ∧
      (sampleEntropy.now.month < 100 →
        twoDigitVal (M.getD 0 '0') (M.getD 1 '0') = sampleEntropy.now.month) ∧
      (sampleEntropy.now.year < 10000 →
        fourDigitVal (Y.getD 0 '0') (Y.getD 1 '0') (Y.getD 2 '0') (Y.getD 3 '0') =
          sampleEntropy.now.year) ∧
      (sampleEntropy.now.hour < 24 →
        twoDigitVal (H.getD 0 '0') (H.getD 1 '0') = sampleEntropy.now.hour) ∧
      (sampleEntropy.now.minute < 60 →
        twoDigitVal (Mi.getD 0 '0') (Mi.getD 1 '0') = sampleEntropy.now.minute) ∧
      (sampleEntropy.now.second < 60 →
        twoDigitVal (S.getD 0 '0') (S.getD 1 '0') = sampleEntropy.now.second) :=
  claim_C7_timestamp_format sampleEntropy 1 "a@b.c" true [] sampleResult
    [sampleDoc] ⟨1, 1⟩ rfl

/-- Claim C9: when `approve_service_key` succeeds for a stored
(client email, app key) pair, the collection decomposes around the
first matching document, only that document is rewritten — with only
its approval flag set to 1 and every other field untouched — and every
other document (before and after it) is unchanged. -/
theorem claim_C9_approve_frame (email cid : String) (s s2 : Collection)
    (h : approve_service_key email cid s = (.ok (), s2)) :
    ∃ pre d post, s = pre ++ d :: post ∧
      (∀ x ∈ pre, matchesEmailKey email cid x = false) ∧
      matchesEmailKey email cid d = true ∧
      d.is_approved ≠ some 1 ∧
      s2 = pre ++ setApproved d :: post ∧
      (setApproved d).is_approved = some 1 ∧
      (setApproved d).client_email = d.client_email ∧
      (setApproved d).app_key = d.app_key ∧
      (setApproved d).app_secret = d.app_secret ∧
      (setApproved d).created_at = d.created_at ∧
      (setApproved d).service_name = d.service_name ∧
      (setApproved d).service_domain = d.service_domain ∧
      (setApproved d).service_uri = d.service_uri := by
  by_cases hemail : email = ""
  · simp only [approve_service_key, if_pos hemail] at h
    injection h with h1 h2
    exact Except.noConfusion h1
  · by_cases hcid : cid = ""
    · simp only [approve_service_key, if_neg hemail, if_pos hcid] at h
      injection h with h1 h2
      exact Except.noConfusion h1
    · cases hfind : List.find? (matchesEmailKey email cid) s with
      | none =>
        simp only [approve_service_key, if_neg hemail, if_neg hcid, hfind] at h
        injection h with h1 h2
        exact Except.noConfusion h1
      | some d0 =>
        simp only [approve_service_key, if_neg hemail, if_neg hcid, hfind] at h
        by_cases hn : (updateFirst (matchesEmailKey email cid) setApproved s).2 = 0
        · rw [if_pos hn] at h
          injection h with h1 h2
          exact Except.noConfusion h1
        · rw [if_neg hn] at h
          injection h with h1 h2
          rcases updateFirst_decomp (matchesEmailKey email cid) setApproved s
              (updateFirst (matchesEmailKey email cid) setApproved s).1
              (updateFirst (matchesEmailKey email cid) setApproved s).2 rfl with
            ⟨hall, hs, hn0⟩ | ⟨pre, d, post, hsplit, hpre, hd, hs, hcount⟩
          · exact absurd hn0 hn
          · have hdd : ¬ setApproved d = d := by
              intro heq
              rw [hcount, if_pos heq] at hn
              exact hn rfl
            have hia : d.is_approved ≠ some 1 := by
              intro h1a
              apply hdd
              obtain ⟨ce, ak, asx, ca, sn, sd, su, ia⟩ := d
              simp only [setApproved]
              simp_all
            exact ⟨pre, d, post, hsplit, hpre, hd, hia, by rw [← h2, hs],
              rfl, rfl, rfl, rfl, rfl, rfl, rfl, rfl⟩

/-- Witness for C9: approving the single stored document sets only its
approval flag. -/
theorem claim_C9_witness :
    ∃ pre d post, ([plainDoc] : Collection) = pre ++ d :: post ∧
      (∀ x ∈ pre, matchesEmailKey "a@b.c" "K1" x = false) ∧
      matchesEmailKey "a@b.c" "K1" d = true ∧
      d.is_approved ≠ some 1 ∧
      ([setApproved plainDoc] : Collection) = pre ++ setApproved d :: post ∧
      (setApproved d).is_approved = some 1 ∧
      (setApproved d).client_email = d.client_email ∧
      (setApproved d).app_key = d.app_key ∧
      (setApproved d).app_secret = d.app_secret ∧
      (setApproved d).created_at = d.created_at ∧
      (setApproved d).service_name = d.service_name ∧
      (setApproved d).service_domain = d.service_domain ∧
      (setApproved d).service_uri = d.service_uri :=
  claim_C9_approve_frame "a@b.c" "K1" [plainDoc] [setApproved plainDoc] rfl

/-- Counterexample to claim C10 as stated: for the stored document
`approvedDoc1`, whose three service fields equal the requested values
but whose approval flag is 1, the update is not a no-op (it resets
`is_approved` to 0), so `add_client_service` succeeds and changes the
collection instead of failing with "No changes were made". -/
theorem claim_C10_counterexample :
    approvedDoc1.service_name = some sampleAddReq.service_name ∧
    approvedDoc1.service_domain = some sampleAddReq.service_domain ∧
    approvedDoc1.service_uri = some sampleAddReq.service_uri ∧
    (add_client_service sampleAddReq [approvedDoc1]).1 = .ok () ∧
    add_client_service sampleAddReq [approvedDoc1] ≠
      (.error .noChanges, [approvedDoc1]) ∧
    (add_client_service sampleAddReq [approvedDoc1]).2 ≠ [approvedDoc1] := by
  refine ⟨rfl, rfl, rfl, rfl, ?_, by decide⟩
  intro heq
  have h1 : (add_client_service sampleAddReq [approvedDoc1]).1 =
      .error .noChanges := by rw [heq]
  have h2 : (add_client_service sampleAddReq [approvedDoc1]).1 = .ok () := rfl
  rw [h1] at h2
  exact Except.noConfusion h2

/-- Claim C10 as amended: `add_client_service` never inserts a new
document (the number of stored documents is always preserved), and for
every well-formed request (all fields nonempty): when no stored
document matches the (client email, app key) pair, or when the first
matching document already stores exactly the written values — the
three service fields and approval flag 0, so the update modifies
nothing — the operation fails with the "No changes were made" error
and the collection is left unchanged. -/
theorem claim_C10_amended (r : AddRequest) (s : Collection) :
    (add_client_service r s).2.length = s.length ∧
    (r.client_email ≠ "" → r.app_key ≠ "" → r.service_name ≠ "" →
     r.service_domain ≠ "" → r.service_uri ≠ "" →
     ((List.find? (matchesEmailKey r.client_email r.app_key) s = none →
        add_client_service r s = (.error .noChanges, s)) ∧
      (∀ d, List.find? (matchesEmailKey r.client_email r.app_key) s = some d →
        d.service_name = some r.service_name →
        d.service_domain = some r.service_domain →
        d.service_uri = some r.service_uri →
        d.is_approved = some 0 →
        add_client_service r s = (.error .noChanges, s)))) := by
  constructor
  · simp only [add_client_service]
    split_ifs <;> first | rfl | exact updateFirst_length _ _ s
  · intro he hk hn hd hu
    constructor
    · intro hnone
      have hall : ∀ x ∈ s, matchesEmailKey r.client_email r.app_key x = false := by
        rw [List.find?_eq_none] at hnone
        intro x hx
        simpa using hnone x hx
      have hupd := updateFirst_no_match (matchesEmailKey r.client_email r.app_key)
        (applyServiceData r) s hall
      simp only [add_client_service, if_neg he, if_neg hk, if_neg hn, if_neg hd,
        if_neg hu, hupd]
      rfl
    · intro d hfind hsn hsd hsu hia
      obtain ⟨pre, post, hsplit, hpre, hmatch⟩ :=
        find?_decomp (matchesEmailKey r.client_email r.app_key) s d hfind
      have hfd : applyServiceData r d = d := by
        obtain ⟨ce, ak, asx, ca, sn, sd2, su, ia⟩ := d
        simp only [applyServiceData]
        simp_all
      have hupd := updateFirst_first_match (matchesEmailKey r.client_email r.app_key)
        (applyServiceData r) pre d post hpre hmatch
      rw [hfd, if_pos rfl, ← hsplit] at hupd
      simp only [add_client_service, if_neg he, if_neg hk, if_neg hn, if_neg hd,
        if_neg hu, hupd]
      rfl

/-- Witness for the amended C10: a request matching a stored document
that already holds the written values fails with "No changes were
made" and leaves the collection unchanged. -/
theorem claim_C10_witness :
    (add_client_service sampleAddReq [approvedDoc]).2.length =
      ([approvedDoc] : Collection).length ∧
    add_client_service sampleAddReq [approvedDoc] =
      (.error .noChanges, [approvedDoc]) := by
  refine ⟨(claim_C10_amended sampleAddReq [approvedDoc]).1, ?_⟩
  exact ((claim_C10_amended sampleAddReq [approvedDoc]).2 (by decide) (by decide)
    (by decide) (by decide) (by decide)).2 approvedDoc (by decide) (by decide)
    (by decide) (by decide) (by decide)
